import Mathlib

/-!
Verification of `stanza/utils/datasets/prepare_tokenizer_treebank.py`.

The module prepares tokenizer training data for UD treebanks: it reads
conllu annotation files as blank-line-delimited sentence blocks, strips
multi-word-token rows for one treebank, synthesizes a train/dev split for
treebanks that ship without a dev set, and dispatches per-treebank
special cases.

Files are modelled as lists of lines, a line as a list of characters
(without its newline terminator).  Fallible code (a Python `assert` or a
raised `ValueError`) is modelled with `Except String`.  The Python global
`random` generator state is threaded explicitly as a `Nat` so that the
reseeding performed by `split_train_file` is visible in the model.
-/

deriving instance DecidableEq for Except

namespace PrepareTokenizerTreebank

/-- A line of a text file: its characters, without the newline terminator. -/
abbrev Line := List Char

/-- A sentence, as the reader builds it: an ordered block of stripped,
non-empty annotation lines. -/
abbrev Sent := List Line

/-- Whitespace as Python `str.strip()` removes it (space, tab, carriage
return, line feed; the characters that occur in text lines). -/
def isWS (c : Char) : Bool := c.isWhitespace

/-- Python `line.strip()`: the line without its leading and trailing
whitespace. -/
def pstrip (l : Line) : Line := List.rdropWhile isWS (l.dropWhile isWS)

/-- The loop of `read_sentences_from_conllu` (source lines 41-55): each file
line is stripped; a blank line flushes the current cache as one sentence;
a leftover cache is flushed at end of file. -/
def readAux : List Line → Sent → List Sent
  | [], cache => if cache.isEmpty then [] else [cache]
  | line :: rest, cache =>
    let l := pstrip line
    if l.isEmpty then
      if cache.isEmpty then readAux rest cache else cache :: readAux rest []
    else
      readAux rest (cache ++ [l])

/-- `read_sentences_from_conllu` (source lines 41-55), on the file's lines. -/
def read_sentences_from_conllu (file : List Line) : List Sent := readAux file []

/-- `write_sentences_to_conllu` (source lines 57-62): each sentence's lines
are printed, followed by one blank line; the result is the written file's
lines. -/
def write_sentences_to_conllu (sents : List Sent) : List Line :=
  (sents.map (fun lines => lines ++ [([] : Line)])).flatten

/-- A file with trailing blank lines removed: the normalization the
round-trip claims allow at end of file. -/
def stripTrailingBlanks (file : List Line) : List Line :=
  List.rdropWhile (fun l => l.isEmpty) file

/-- Modelled from the spec: one step of "the seeded random source" (the
Python `random` module, stdlib code outside this repository), as a
deterministic linear congruential generator on an explicit `Nat` state. -/
def lcgNext (s : Nat) : Nat := (s * 1103515245 + 12345) % 2 ^ 31

/-- Modelled from the spec: `random.shuffle` (stdlib code outside this
repository), "shuffle the full sentence sequence using the seeded random
source": a Fisher-Yates shuffle that repeatedly draws an index below the
number of remaining elements and moves that element to the output. -/
def shuffleGo (dflt : α) : Nat → Nat → List α → List α
  | 0, _, l => l
  | fuel + 1, s, l =>
    match l with
    | [] => []
    | a :: rest =>
      let s2 := lcgNext s
      let j := s2 % (a :: rest).length
      (a :: rest).getD j dflt :: shuffleGo dflt fuel s2 ((a :: rest).eraseIdx j)

/-- Modelled from the spec: `random.seed(seed)` followed by
`random.shuffle(l)` on sentence lists. -/
def pyShuffle (seed : Nat) (l : List Sent) : List Sent :=
  shuffleGo ([] : Sent) l.length seed l

/-- `XV_RATIO = 0.2` (source line 152).  The Python value is the double
nearest 0.2; `int(n * 0.2)` agrees with the exact rational floor for every
feasible sentence count, so the ratio is embedded as the exact rational. -/
def XV_RATIO : ℚ := 0.2

/-- What `split_train_file` computes and writes when it succeeds: the dev
and train sentence slices, the two conllu files written from them, and the
`True` it returns.  (The derived txt files come from an external perl
script and are not modelled.) -/
structure SplitResult where
  dev_sents : List Sent
  train_sents : List Sent
  dev_output_conllu : List Line
  train_output_conllu : List Line
  returned : Bool
  deriving DecidableEq

/-- `split_train_file` (source lines 64-92): reseed the generator with the
constant 1234 (discarding the incoming state `rngState`), read and shuffle
the train conllu, compute `n_dev = int(len(sents) * XV_RATIO)`, assert
`n_dev >= 1` (an `Except.error` models the raised `AssertionError`, which
happens before anything is written), slice dev then train, write both
conllu files and return `True`.  `int(len * 0.2)` is embedded as the exact
`len * 2 / 10` in natural division, which `devCount_eq` below identifies
with the rational floor of `len * XV_RATIO`. -/
def split_train_file (rngState : Nat) (train_input_conllu : List Line) :
    Except String SplitResult :=
  let sents := pyShuffle 1234 (read_sentences_from_conllu train_input_conllu)
  let n_dev := sents.length * 2 / 10
  if 1 ≤ n_dev then
    let dev_sents := sents.take n_dev
    let train_sents := sents.drop n_dev
    Except.ok
      { dev_sents := dev_sents
        train_sents := train_sents
        dev_output_conllu := write_sentences_to_conllu dev_sents
        train_output_conllu := write_sentences_to_conllu train_sents
        returned := true }
  else
    Except.error "Dev sentence number less than one."

/-- How `process_partial_ud_treebank` ends when no exception is raised:
either it returned early because the splitter gave a falsy result, or it
went on to label preparation with the splitter's output. -/
inductive PartialOutcome where
  | skipped
  | processed (r : SplitResult)
  deriving DecidableEq

/-- `process_partial_ud_treebank` (source lines 154-191), from the train
conllu file's lines: an exception from `split_train_file` propagates; a
falsy return value makes the caller skip the treebank; a truthy one leads
to label preparation on the split outputs (label generation itself is an
external collaborator and is not modelled beyond the outcome). -/
def process_partial_ud_treebank (rngState : Nat) (train_input_conllu : List Line) :
    Except String PartialOutcome :=
  match split_train_file rngState train_input_conllu with
  | Except.error e => Except.error e
  | Except.ok r =>
    if r.returned then Except.ok (PartialOutcome.processed r)
    else Except.ok PartialOutcome.skipped

/-- A digit as the character class `[0-9]` of `MWT_RE` matches it. -/
def isAsciiDigit (c : Char) : Bool := '0' ≤ c && c ≤ '9'

/-- `MWT_RE.match(line)` (source line 105): the regex `^[0-9]+[-][0-9]+`
anchored at the start of the line: one or more digits, a hyphen, one or
more digits. -/
def MWT_RE (line : Line) : Bool :=
  let ds := line.takeWhile isAsciiDigit
  !ds.isEmpty &&
    match line.drop ds.length with
    | '-' :: rest => !(rest.takeWhile isAsciiDigit).isEmpty
    | _ => false

/-- `strip_mwt_from_conll` (source lines 107-112): copy the input file line
by line, writing every line that `MWT_RE` does not match. -/
def strip_mwt_from_conll : List Line → List Line
  | [] => []
  | line :: rest =>
    if MWT_RE line then strip_mwt_from_conll rest
    else line :: strip_mwt_from_conll rest

/-- What `prepare_ud_dataset` leaves behind for one split: the working-copy
txt and conllu files, and the pair of files `prepare_labels` was invoked
on afterwards. -/
structure PrepareResult where
  txt_copy : List Line
  conllu_copy : List Line
  labels_called_on : List Line × List Line
  deriving DecidableEq

/-- `prepare_ud_dataset` (source lines 115-139), over the contents of the
located input files.  `ssjProcess` is the external `preprocess_ssj_data`
collaborator, passed as a parameter: for short name `sl_ssj` it produces
both copies; for `en_ewt` the conllu copy is MWT-stripped and the txt is
copied verbatim; otherwise both files are copied verbatim.  In every case
`prepare_labels` is then invoked on the two copies. -/
def prepare_ud_dataset (ssjProcess : List Line → List Line → List Line × List Line)
    (short_name : String) (input_txt input_conllu : List Line) : PrepareResult :=
  let copies :=
    if short_name = "sl_ssj" then ssjProcess input_txt input_conllu
    else if short_name = "en_ewt" then (input_txt, strip_mwt_from_conll input_conllu)
    else (input_txt, input_conllu)
  { txt_copy := copies.1, conllu_copy := copies.2, labels_called_on := copies }

/-- The collaborators `process_treebank` consults: the file-discovery
helper `common.find_treebank_dataset_file` (keyed on treebank, dataset and
extension), the filesystem read, and `treebank_to_short_name`. -/
structure TreebankEnv where
  findFile : String → String → String → Option String
  readLines : String → List Line
  shortNameOf : String → String

/-- Which path `process_treebank` took for a treebank that got past the
missing-train-file guard. -/
inductive TreebankOutcome where
  | partialSplit (o : PartialOutcome)
  | fullSplits (short_name : String)
  deriving DecidableEq

/-- `process_treebank` (source lines 194-220): raise a `ValueError` naming
the treebank when no train txt file can be located, before any per-split
processing; otherwise dispatch on whether a dev txt file exists.  The
dev-present path (three `prepare_ud_dataset` calls) is summarized by its
dispatch record; the dev-absent path runs the splitter on the located
train conllu (the error on a missing train conllu models the uncaught
exception Python raises when opening `None`). -/
def process_treebank (env : TreebankEnv) (rngState : Nat) (treebank : String) :
    Except String TreebankOutcome :=
  match env.findFile treebank "train" "txt" with
  | none => Except.error ("Cannot find train file for treebank " ++ treebank)
  | some _ =>
    match env.findFile treebank "dev" "txt" with
    | none =>
      match env.findFile treebank "train" "conllu" with
      | none => Except.error ("Cannot find train conllu for treebank " ++ treebank)
      | some path =>
        Except.map TreebankOutcome.partialSplit
          (process_partial_ud_treebank rngState (env.readLines path))
    | some _ => Except.ok (TreebankOutcome.fullSplits (env.shortNameOf treebank))

/-! Helper lemmas about the reader and writer. -/

theorem pstrip_nil : pstrip [] = [] := rfl

theorem pstrip_idem (l : Line) : pstrip (pstrip l) = pstrip l := by
  unfold pstrip
  rcases hm : List.rdropWhile isWS (l.dropWhile isWS) with _ | ⟨a, m⟩
  · simp
  · have ha : ¬ isWS a = true := by
      obtain ⟨t, ht⟩ := List.rdropWhile_prefix isWS (l.dropWhile isWS)
      rw [hm] at ht
      have hlen : 0 < (List.dropWhile isWS l).length := by
        rw [← ht]; simp
      have hz := List.dropWhile_get_zero_not (p := isWS) l hlen
      have hget : (List.dropWhile isWS l).get ⟨0, hlen⟩ = a := by
        simp [← ht]
      rwa [hget] at hz
    have hdw : List.dropWhile isWS (a :: m) = a :: m := by
      simp [List.dropWhile_cons, ha]
    rw [hdw, ← hm, List.rdropWhile_idempotent]

/-- A line as the reader stores it inside a sentence: already stripped and
non-blank. -/
def canonLine (l : Line) : Prop := pstrip l = l ∧ l ≠ []

theorem canonLine_pstrip (l : Line) (h : (pstrip l).isEmpty = false) :
    canonLine (pstrip l) :=
  ⟨pstrip_idem l, by simpa [List.isEmpty_iff] using h⟩

theorem readAux_nil (cache : Sent) :
    readAux [] cache = if cache.isEmpty then [] else [cache] := rfl

theorem readAux_cons (line : Line) (rest : List Line) (cache : Sent) :
    readAux (line :: rest) cache =
      if (pstrip line).isEmpty then
        if cache.isEmpty then readAux rest cache else cache :: readAux rest []
      else readAux rest (cache ++ [pstrip line]) := rfl

/-- Every sentence the reader produces is non-empty and consists of
stripped, non-blank lines. -/
theorem readAux_canon (file : List Line) :
    ∀ cache : Sent, (∀ l ∈ cache, canonLine l) →
      ∀ s ∈ readAux file cache, s ≠ [] ∧ ∀ l ∈ s, canonLine l := by
  induction file with
  | nil =>
    intro cache hc s hs
    rw [readAux_nil] at hs
    by_cases h : cache.isEmpty
    · simp [h] at hs
    · simp [h] at hs
      subst hs
      exact ⟨by simpa [List.isEmpty_iff] using h, hc⟩
  | cons line rest ih =>
    intro cache hc s hs
    rw [readAux_cons] at hs
    by_cases hb : (pstrip line).isEmpty
    · simp only [hb, if_true] at hs
      by_cases hce : cache.isEmpty
      · simp only [hce, if_true] at hs
        exact ih cache hc s hs
      · simp only [hce, Bool.false_eq_true, if_false, List.mem_cons] at hs
        rcases hs with rfl | hs
        · exact ⟨by simpa [List.isEmpty_iff] using hce, hc⟩
        · exact ih [] (by simp) s hs
    · simp only [hb, Bool.false_eq_true, if_false] at hs
      refine ih (cache ++ [pstrip line]) ?_ s hs
      intro l hl
      rcases List.mem_append.mp hl with h | h
      · exact hc l h
      · rw [List.mem_singleton.mp h]
        exact canonLine_pstrip line (by simpa using hb)

/-- Reading a file that starts with a block of stripped, non-blank lines
just accumulates that block onto the cache. -/
theorem readAux_append_sent (s : Sent) :
    (∀ l ∈ s, canonLine l) →
    ∀ (rest : List Line) (cache : Sent),
      readAux (s ++ rest) cache = readAux rest (cache ++ s) := by
  induction s with
  | nil => intro _ rest cache; simp
  | cons a s ih =>
    intro hfix rest cache
    have ha := hfix a (List.mem_cons_self a s)
    have hne : (pstrip a).isEmpty = false := by
      rw [ha.1]; simpa [List.isEmpty_iff] using ha.2
    rw [List.cons_append, readAux_cons, hne]
    simp only [Bool.false_eq_true, if_false, ha.1]
    rw [ih (fun l hl => hfix l (List.mem_cons_of_mem a hl)) rest (cache ++ [a])]
    simp

/-- Reading back a written canonical sentence list recovers it exactly. -/
theorem readAux_write (sents : List Sent)
    (hs : ∀ s ∈ sents, s ≠ [] ∧ ∀ l ∈ s, canonLine l) :
    readAux (write_sentences_to_conllu sents) [] = sents := by
  induction sents with
  | nil => rfl
  | cons s rest ih =>
    have hw : write_sentences_to_conllu (s :: rest) =
        s ++ (([] : Line) :: write_sentences_to_conllu rest) := by
      simp [write_sentences_to_conllu]
    obtain ⟨hne, hcanon⟩ := hs s (List.mem_cons_self s rest)
    rw [hw, readAux_append_sent s hcanon, List.nil_append, readAux_cons]
    have hb : (pstrip ([] : Line)).isEmpty = true := rfl
    rw [hb]
    simp only [if_true]
    have hce : s.isEmpty = false := by simpa [List.isEmpty_iff] using hne
    rw [hce]
    simp only [Bool.false_eq_true, if_false]
    rw [ih (fun t ht => hs t (List.mem_cons_of_mem s ht))]

theorem write_sents_cons (s : Sent) (rest : List Sent) :
    write_sentences_to_conllu (s :: rest) =
      s ++ (([] : Line) :: write_sentences_to_conllu rest) := by
  simp [write_sentences_to_conllu]

/-- The blank line the writer appends beyond what the file itself ends
with: one, unless the file already ends blank (or nothing was flushed). -/
def tailBlank (file : List Line) (cache : Sent) : List Line :=
  match file.getLast? with
  | none => if cache.isEmpty then [] else [([] : Line)]
  | some l => if l.isEmpty then [] else [([] : Line)]

theorem tailBlank_cons_blank (rest : List Line) (cache : Sent) :
    tailBlank rest [] = tailBlank (([] : Line) :: rest) cache := by
  cases rest with
  | nil => simp [tailBlank]
  | cons r rs =>
    unfold tailBlank
    cases hg : (r :: rs).getLast? with
    | none => simp at hg
    | some l => rw [List.getLast?_cons_cons, hg]

theorem tailBlank_cons_nonblank (line : Line) (rest : List Line)
    (cache cache2 : Sent) (hline : line.isEmpty = false)
    (h2 : cache2.isEmpty = false) :
    tailBlank (line :: rest) cache = tailBlank rest cache2 := by
  cases rest with
  | nil => simp [tailBlank, hline, h2]
  | cons r rs =>
    unfold tailBlank
    cases hg : (r :: rs).getLast? with
    | none => simp at hg
    | some l => rw [List.getLast?_cons_cons, hg]

/-- Writing back what the reader produced from a file of stripped lines
with no leading and no doubled blank lines reproduces cache, file, and at
most one extra trailing blank line. -/
theorem write_readAux (file : List Line) :
    ∀ cache : Sent,
      (∀ l ∈ file, pstrip l = l) →
      List.Chain' (fun a b => a = ([] : Line) → b ≠ ([] : Line)) file →
      (∀ l ∈ cache, canonLine l) →
      (file.head? = some ([] : Line) → cache ≠ []) →
      write_sentences_to_conllu (readAux file cache) =
        cache ++ file ++ tailBlank file cache := by
  induction file with
  | nil =>
    intro cache hfix hch hcache hhead
    rw [readAux_nil]
    by_cases hc : cache.isEmpty
    · have hcn : cache = [] := by simpa [List.isEmpty_iff] using hc
      simp [hcn, tailBlank, write_sentences_to_conllu]
    · simp only [hc, Bool.false_eq_true, if_false]
      rw [write_sents_cons]
      simp [tailBlank, hc, write_sentences_to_conllu]
  | cons line rest ih =>
    intro cache hfix hch hcache hhead
    have hl : pstrip line = line := hfix line (List.mem_cons_self line rest)
    rw [readAux_cons, hl]
    by_cases hblank : line.isEmpty
    · have hline : line = [] := by simpa [List.isEmpty_iff] using hblank
      subst hline
      have hcne : cache ≠ [] := hhead rfl
      have hc : cache.isEmpty = false := by simpa [List.isEmpty_iff] using hcne
      simp only [List.isEmpty_nil, if_true, hc, Bool.false_eq_true, if_false]
      rw [write_sents_cons]
      rw [ih [] (fun l hl2 => hfix l (List.mem_cons_of_mem _ hl2)) hch.tail
        (by simp) ?_]
      · rw [← tailBlank_cons_blank rest cache]
        simp
      · intro hh
        exact absurd rfl ((List.chain'_cons'.mp hch).1 [] hh rfl)
    · have hbf : line.isEmpty = false := by simpa using hblank
      have hlne : line ≠ [] := by simpa [List.isEmpty_iff] using hblank
      simp only [hbf, Bool.false_eq_true, if_false]
      rw [ih (cache ++ [line]) (fun l hl2 => hfix l (List.mem_cons_of_mem _ hl2))
        hch.tail ?_ (by simp)]
      · rw [← tailBlank_cons_nonblank line rest cache (cache ++ [line]) hbf
          (by simp [List.isEmpty_iff])]
        simp
      · intro l hl2
        rcases List.mem_append.mp hl2 with h | h
        · exact hcache l h
        · rw [List.mem_singleton.mp h]
          exact ⟨hl, hlne⟩

theorem stripTrailingBlanks_append_blank (file : List Line) :
    stripTrailingBlanks (file ++ [([] : Line)]) = stripTrailingBlanks file := by
  simp [stripTrailingBlanks, List.rdropWhile_concat]

/-! Helper lemmas about the shuffle and the dev-count computation. -/

theorem getD_cons_eraseIdx_perm (dflt : α) :
    ∀ (l : List α) (j : Nat), j < l.length →
      List.Perm (l.getD j dflt :: l.eraseIdx j) l := by
  intro l
  induction l with
  | nil => intro j hj; simp at hj
  | cons a t ih =>
    intro j hj
    cases j with
    | zero => simp
    | succ j =>
      have hj2 : j < t.length := by simpa using hj
      simp only [List.getD_cons_succ, List.eraseIdx_cons_succ]
      exact List.Perm.trans (List.Perm.swap a (t.getD j dflt) (t.eraseIdx j))
        (List.Perm.cons a (ih j hj2))

theorem shuffleGo_perm (dflt : α) :
    ∀ (fuel s : Nat) (l : List α), List.Perm (shuffleGo dflt fuel s l) l := by
  intro fuel
  induction fuel with
  | zero => intro s l; exact List.Perm.refl l
  | succ fuel ih =>
    intro s l
    cases l with
    | nil => exact List.Perm.refl _
    | cons a t =>
      rw [shuffleGo]
      have hj : lcgNext s % (a :: t).length < (a :: t).length :=
        Nat.mod_lt _ (by simp)
      exact List.Perm.trans
        (List.Perm.cons _ (ih (lcgNext s) ((a :: t).eraseIdx _)))
        (getD_cons_eraseIdx_perm dflt (a :: t) _ hj)

theorem pyShuffle_perm (seed : Nat) (l : List Sent) :
    List.Perm (pyShuffle seed l) l :=
  shuffleGo_perm ([] : Sent) l.length seed l

theorem pyShuffle_length (seed : Nat) (l : List Sent) :
    (pyShuffle seed l).length = l.length :=
  (pyShuffle_perm seed l).length_eq

theorem twoTenths_eq_fifth (n : Nat) : n * 2 / 10 = n / 5 := by omega

/-- `int(n * 0.2)`, as the code computes it, is the floor of the exact
rational `n * XV_RATIO`, i.e. integer division by five. -/
theorem devCount_eq (n : Nat) : (⌊(n : ℚ) * XV_RATIO⌋).toNat = n * 2 / 10 := by
  have hx : (n : ℚ) * XV_RATIO = (n : ℚ) / 5 := by
    rw [show XV_RATIO = 1 / 5 by norm_num [ XV_RATIO]]
    ring
  rw [twoTenths_eq_fifth, hx, Int.floor_toNat]
  rw [show ((5 : ℚ)) = ((5 : ℕ) : ℚ) by norm_num]
  rw [Nat.floor_div_nat, Nat.floor_natCast]

/-- `split_train_file`, with its guard and slices written out: the dev count
is `int(len * 0.2)`, i.e. integer division of the sentence count by five. -/
theorem split_train_file_eq (rng : Nat) (file : List Line) :
    split_train_file rng file =
      if 1 ≤ (read_sentences_from_conllu file).length / 5 then
        Except.ok
          { dev_sents := (pyShuffle 1234 (read_sentences_from_conllu file)).take
              ((read_sentences_from_conllu file).length / 5)
            train_sents := (pyShuffle 1234 (read_sentences_from_conllu file)).drop
              ((read_sentences_from_conllu file).length / 5)
            dev_output_conllu := write_sentences_to_conllu
              ((pyShuffle 1234 (read_sentences_from_conllu file)).take
                ((read_sentences_from_conllu file).length / 5))
            train_output_conllu := write_sentences_to_conllu
              ((pyShuffle 1234 (read_sentences_from_conllu file)).drop
                ((read_sentences_from_conllu file).length / 5))
            returned := true }
      else Except.error "Dev sentence number less than one." := by
  simp only [split_train_file, pyShuffle_length, twoTenths_eq_fifth]

/-! Concrete data for witnesses and counterexamples. -/

/-- A train conllu file with five distinct one-line sentences. -/
def exampleTrainFile : List Line :=
  [['a'], [], ['b'], [], ['c'], [], ['d'], [], ['e']]

/-- What the splitter produces on `exampleTrainFile`. -/
def exampleSplitResult : SplitResult :=
  { dev_sents := [[['d']]]
    train_sents := [[['a']], [['b']], [['c']], [['e']]]
    dev_output_conllu := [['d'], []]
    train_output_conllu := [['a'], [], ['b'], [], ['c'], [], ['e'], []]
    returned := true }

/-- A train conllu file with five copies of the same one-line sentence. -/
def duplicateTrainFile : List Line :=
  [['b'], [], ['b'], [], ['b'], [], ['b'], [], ['b']]

/-- A train conllu file with only four sentences: `int(4 * 0.2) == 0`. -/
def tinyTrainFile : List Line := [['a'], [], ['b'], [], ['c'], [], ['d']]

/-- C1: on a train file whose sentence count gives a dev count of zero, the
splitter does not return a falsy value for the caller to skip on: it raises
(`assert n_dev >= 1` fails before any output is written), and the exception
propagates through `process_partial_ud_treebank`, so the treebank crashes
instead of being skipped — contrary to the claim and to the module
docstring's promise to skip tiny treebanks. -/
theorem split_train_file_asserts_on_tiny_input :
    split_train_file 0 tinyTrainFile
        = Except.error "Dev sentence number less than one." ∧
      process_partial_ud_treebank 0 tinyTrainFile
        = Except.error "Dev sentence number less than one." :=
  ⟨by decide, by decide⟩

/-- C4: `split_train_file` reseeds the generator with the constant 1234 at
the start of every invocation, so its result does not depend on the
incoming generator state — two runs on the same input give identical
results no matter what was processed before. -/
theorem split_train_file_seed_reset_deterministic (s1 s2 : Nat)
    (file : List Line) :
    split_train_file s1 file = split_train_file s2 file := rfl

/-- C5: read after write is the identity on sentence sequences produced by
a read: for every file, reading the file written from its parsed sentences
gives back exactly those sentences. -/
theorem read_write_read_roundtrip (file : List Line) :
    read_sentences_from_conllu
        (write_sentences_to_conllu (read_sentences_from_conllu file)) =
      read_sentences_from_conllu file :=
  readAux_write (read_sentences_from_conllu file)
    (readAux_canon file [] (by simp))

/-- C7: the MWT stripper's output contains no line matching
`^[0-9]+[-][0-9]+`, and equals the filter keeping every non-matching line,
so all other lines pass through unchanged and in their original order. -/
theorem strip_mwt_removes_all_and_keeps_rest (file : List Line) :
    (∀ l ∈ strip_mwt_from_conll file, MWT_RE l = false) ∧
      strip_mwt_from_conll file = file.filter (fun l => !MWT_RE l) := by
  induction file with
  | nil => exact ⟨by simp [strip_mwt_from_conll], rfl⟩
  | cons line rest ih =>
    have hun : strip_mwt_from_conll (line :: rest) =
        if MWT_RE line then strip_mwt_from_conll rest
        else line :: strip_mwt_from_conll rest := rfl
    constructor
    · intro l hl
      rw [hun] at hl
      by_cases h : MWT_RE line
      · rw [if_pos h] at hl
        exact ih.1 l hl
      · rw [if_neg h] at hl
        rcases List.mem_cons.mp hl with rfl | hl2
        · simpa using h
        · exact ih.1 l hl2
    · rw [hun, List.filter_cons]
      by_cases h : MWT_RE line
      · simp [h, ih.2]
      · simp [h, ih.2]

/-- C3 (amended): when the splitter succeeds, the sizes of dev and train sum
to the input size and their concatenation is a permutation of the input
(each occurrence of a sentence is placed exactly once, and no foreign
sentence appears); when the input sentences are pairwise distinct, every
sentence moreover occurs in exactly one of dev or train. -/
theorem split_partition_perm (rng : Nat) (file : List Line) (r : SplitResult)
    (h : split_train_file rng file = Except.ok r) :
    r.dev_sents.length + r.train_sents.length
        = (read_sentences_from_conllu file).length ∧
      List.Perm (r.dev_sents ++ r.train_sents) (read_sentences_from_conllu file) ∧
      ((read_sentences_from_conllu file).Nodup →
        ∀ s ∈ read_sentences_from_conllu file,
          (s ∈ r.dev_sents ∧ s ∉ r.train_sents) ∨
            (s ∈ r.train_sents ∧ s ∉ r.dev_sents)) := by
  rw [split_train_file_eq] at h
  by_cases hd : 1 ≤ (read_sentences_from_conllu file).length / 5
  · rw [if_pos hd] at h
    injection h with h2
    subst h2
    refine ⟨?_, ?_, ?_⟩
    · simp only [List.length_take, List.length_drop, pyShuffle_length]
      have := Nat.div_le_self (read_sentences_from_conllu file).length 5
      omega
    · rw [List.take_append_drop]
      exact pyShuffle_perm 1234 (read_sentences_from_conllu file)
    · intro hnd s hs
      have hperm := pyShuffle_perm 1234 (read_sentences_from_conllu file)
      have hndS : (pyShuffle 1234 (read_sentences_from_conllu file)).Nodup :=
        hperm.nodup_iff.mpr hnd
      have hsS : s ∈ pyShuffle 1234 (read_sentences_from_conllu file) :=
        hperm.mem_iff.mpr hs
      rw [← List.take_append_drop
        ((read_sentences_from_conllu file).length / 5)
        (pyShuffle 1234 (read_sentences_from_conllu file))] at hndS hsS
      obtain ⟨hnd1, hnd2, hdisj⟩ := List.nodup_append.mp hndS
      rcases List.mem_append.mp hsS with h1 | h2
      · exact Or.inl ⟨h1, fun hx => hdisj h1 hx⟩
      · exact Or.inr ⟨h2, fun hx => hdisj hx h2⟩
  · rw [if_neg hd] at h
    exact absurd h (by simp)

/-- C3 witness: the partition property evaluated on a concrete five-sentence
train file with pairwise distinct sentences. -/
theorem split_partition_perm_witness :
    exampleSplitResult.dev_sents.length + exampleSplitResult.train_sents.length
        = (read_sentences_from_conllu exampleTrainFile).length ∧
      List.Perm (exampleSplitResult.dev_sents ++ exampleSplitResult.train_sents)
        (read_sentences_from_conllu exampleTrainFile) ∧
      ((read_sentences_from_conllu exampleTrainFile).Nodup →
        ∀ s ∈ read_sentences_from_conllu exampleTrainFile,
          (s ∈ exampleSplitResult.dev_sents ∧ s ∉ exampleSplitResult.train_sents) ∨
            (s ∈ exampleSplitResult.train_sents ∧ s ∉ exampleSplitResult.dev_sents)) :=
  split_partition_perm 0 exampleTrainFile exampleSplitResult (by decide)

/-- C3 counterexample: on a train file of five identical sentences the split
succeeds and the sentence occurs both in dev and in train, so it does not
occur in exactly one of the two parts. -/
theorem split_duplicate_sentence_in_both_parts :
    split_train_file 0 duplicateTrainFile = Except.ok
        { dev_sents := [[['b']]]
          train_sents := [[['b']], [['b']], [['b']], [['b']]]
          dev_output_conllu := [['b'], []]
          train_output_conllu := [['b'], [], ['b'], [], ['b'], [], ['b'], []]
          returned := true } ∧
      [['b']] ∈ ([[['b']]] : List Sent) ∧
      [['b']] ∈ ([[['b']], [['b']], [['b']], [['b']]] : List Sent) :=
  ⟨by decide, by decide, by decide⟩

/-- C6: with n parsed sentences, the splitter computes the dev count as the
floor of n * XV_RATIO, requires it to be at least one, takes exactly the
first n_dev shuffled sentences as dev and the remaining n - n_dev shuffled
sentences as train. -/
theorem split_train_file_slices (rng : Nat) (file : List Line) (r : SplitResult)
    (h : split_train_file rng file = Except.ok r) :
    1 ≤ (⌊((read_sentences_from_conllu file).length : ℚ) * XV_RATIO⌋).toNat ∧
      r.dev_sents = (pyShuffle 1234 (read_sentences_from_conllu file)).take
        (⌊((read_sentences_from_conllu file).length : ℚ) * XV_RATIO⌋).toNat ∧
      r.train_sents = (pyShuffle 1234 (read_sentences_from_conllu file)).drop
        (⌊((read_sentences_from_conllu file).length : ℚ) * XV_RATIO⌋).toNat ∧
      r.dev_sents.length =
        (⌊((read_sentences_from_conllu file).length : ℚ) * XV_RATIO⌋).toNat ∧
      r.train_sents.length = (read_sentences_from_conllu file).length -
        (⌊((read_sentences_from_conllu file).length : ℚ) * XV_RATIO⌋).toNat := by
  rw [devCount_eq, twoTenths_eq_fifth]
  rw [split_train_file_eq] at h
  by_cases hd : 1 ≤ (read_sentences_from_conllu file).length / 5
  · rw [if_pos hd] at h
    injection h with h2
    subst h2
    refine ⟨hd, rfl, rfl, ?_, ?_⟩
    · rw [List.length_take, pyShuffle_length]
      exact Nat.min_eq_left
        (Nat.div_le_self (read_sentences_from_conllu file).length 5)
    · rw [List.length_drop, pyShuffle_length]
  · rw [if_neg hd] at h
    exact absurd h (by simp)

/-- C6 witness: the slicing facts evaluated on the concrete five-sentence
train file. -/
theorem split_train_file_slices_witness :
    1 ≤ (⌊((read_sentences_from_conllu exampleTrainFile).length : ℚ)
          * XV_RATIO⌋).toNat ∧
      exampleSplitResult.dev_sents =
        (pyShuffle 1234 (read_sentences_from_conllu exampleTrainFile)).take
          (⌊((read_sentences_from_conllu exampleTrainFile).length : ℚ)
            * XV_RATIO⌋).toNat ∧
      exampleSplitResult.train_sents =
        (pyShuffle 1234 (read_sentences_from_conllu exampleTrainFile)).drop
          (⌊((read_sentences_from_conllu exampleTrainFile).length : ℚ)
            * XV_RATIO⌋).toNat ∧
      exampleSplitResult.dev_sents.length =
        (⌊((read_sentences_from_conllu exampleTrainFile).length : ℚ)
          * XV_RATIO⌋).toNat ∧
      exampleSplitResult.train_sents.length =
        (read_sentences_from_conllu exampleTrainFile).length -
          (⌊((read_sentences_from_conllu exampleTrainFile).length : ℚ)
            * XV_RATIO⌋).toNat :=
  split_train_file_slices 0 exampleTrainFile exampleSplitResult (by decide)

/-- C10: whenever `split_train_file` returns rather than raising, it
returns `True`; consequently the early-return skip branch in
`process_partial_ud_treebank` is unreachable, and the caller always goes
on to label preparation when the splitter returns. -/
theorem split_train_file_always_returns_true (rng : Nat) (file : List Line)
    (r : SplitResult) (h : split_train_file rng file = Except.ok r) :
    r.returned = true ∧
      process_partial_ud_treebank rng file
        = Except.ok (PartialOutcome.processed r) := by
  have h0 := h
  rw [split_train_file_eq] at h
  by_cases hd : 1 ≤ (read_sentences_from_conllu file).length / 5
  · rw [if_pos hd] at h
    injection h with h2
    have hret : r.returned = true := by rw [← h2]
    refine ⟨hret, ?_⟩
    unfold process_partial_ud_treebank
    rw [h0]
    simp [hret]
  · rw [if_neg hd] at h
    exact absurd h (by simp)

/-- C10 witness: on the concrete five-sentence train file the splitter
returns `True` and the caller proceeds to process the split. -/
theorem split_returns_true_concrete :
    exampleSplitResult.returned = true ∧
      process_partial_ud_treebank 0 exampleTrainFile
        = Except.ok (PartialOutcome.processed exampleSplitResult) :=
  split_train_file_always_returns_true 0 exampleTrainFile exampleSplitResult
    (by decide)

/-- C2 (amended): for a file in which every line is already stripped, no
blank line stands at the start, and no two blank lines are adjacent,
writing back the parsed sentences reproduces the file exactly up to a
trailing blank-line normalization.  (Unconditionally the claim fails: the
reader strips surrounding whitespace from each line and collapses runs of
blank lines.) -/
theorem write_read_roundtrip_mod_trailing (file : List Line)
    (hfix : ∀ l ∈ file, pstrip l = l)
    (hch : List.Chain' (fun a b => a = ([] : Line) → b ≠ ([] : Line)) file)
    (hhead : file.head? ≠ some ([] : Line)) :
    stripTrailingBlanks
        (write_sentences_to_conllu (read_sentences_from_conllu file)) =
      stripTrailingBlanks file := by
  have h := write_readAux file [] hfix hch (by simp)
    (fun hh => absurd hh hhead)
  unfold read_sentences_from_conllu
  rw [h, List.nil_append]
  unfold tailBlank
  cases hg : file.getLast? with
  | none =>
    have hf : file = [] := by simpa using hg
    simp [hf]
  | some l =>
    by_cases hb : l.isEmpty
    · simp [hb]
    · simp only [hb, Bool.false_eq_true, if_false]
      exact stripTrailingBlanks_append_blank file

/-- C2 witness: the amended round-trip evaluated on a concrete two-sentence
file of stripped lines separated by single blank lines. -/
theorem write_read_roundtrip_mod_trailing_witness :
    stripTrailingBlanks
        (write_sentences_to_conllu
          (read_sentences_from_conllu [['a'], [], ['b']])) =
      stripTrailingBlanks [['a'], [], ['b']] :=
  write_read_roundtrip_mod_trailing [['a'], [], ['b']] (by decide)
    (by simp [List.chain'_cons]) (by decide)

/-- C2 counterexample: the one-line file whose line is "a " (trailing
space) is not reproduced by write after read, even modulo trailing blank
lines: the reader strips the line to "a". -/
theorem write_read_roundtrip_fails_on_unstripped_line :
    decide (stripTrailingBlanks
        (write_sentences_to_conllu (read_sentences_from_conllu [['a', ' ']])) =
      stripTrailingBlanks [['a', ' ']]) = false := by decide

/-- C8: when no train txt file can be located for a treebank,
`process_treebank` fails with an error whose message names that treebank,
before any per-split processing is attempted, whatever the remaining
collaborators do and whatever the generator state is; there is no retry. -/
theorem process_treebank_missing_train_raises (env : TreebankEnv) (rng : Nat)
    (treebank : String) (h : env.findFile treebank "train" "txt" = none) :
    process_treebank env rng treebank =
      Except.error ("Cannot find train file for treebank " ++ treebank) := by
  unfold process_treebank
  rw [h]

/-- An environment in which no dataset file can be located at all. -/
def envMissingFiles : TreebankEnv :=
  { findFile := fun _ _ _ => none
    readLines := fun _ => []
    shortNameOf := fun t => t }

/-- C8 witness: the missing-train-file error evaluated on a concrete
treebank name and environment. -/
theorem process_treebank_missing_train_raises_witness :
    process_treebank envMissingFiles 0 "UD_Example-X" =
      Except.error ("Cannot find train file for treebank " ++ "UD_Example-X") :=
  process_treebank_missing_train_raises envMissingFiles 0 "UD_Example-X" rfl

/-- C9: `prepare_ud_dataset` selects exactly one transformation by short
name — the SSJ collaborator for `sl_ssj`, MWT-stripping of the conllu with
a verbatim txt copy for `en_ewt`, verbatim copies of both files otherwise —
and in every case label preparation is invoked on the two working copies. -/
theorem prepare_ud_dataset_dispatch
    (ssjProcess : List Line → List Line → List Line × List Line)
    (short_name : String) (input_txt input_conllu : List Line) :
    ((prepare_ud_dataset ssjProcess short_name input_txt input_conllu).labels_called_on
        = ((prepare_ud_dataset ssjProcess short_name input_txt input_conllu).txt_copy,
           (prepare_ud_dataset ssjProcess short_name input_txt input_conllu).conllu_copy)) ∧
      (short_name = "sl_ssj" →
        ((prepare_ud_dataset ssjProcess short_name input_txt input_conllu).txt_copy,
         (prepare_ud_dataset ssjProcess short_name input_txt input_conllu).conllu_copy)
          = ssjProcess input_txt input_conllu) ∧
      (short_name = "en_ewt" →
        (prepare_ud_dataset ssjProcess short_name input_txt input_conllu).txt_copy
            = input_txt ∧
          (prepare_ud_dataset ssjProcess short_name input_txt input_conllu).conllu_copy
            = strip_mwt_from_conll input_conllu) ∧
      (short_name ≠ "sl_ssj" → short_name ≠ "en_ewt" →
        (prepare_ud_dataset ssjProcess short_name input_txt input_conllu).txt_copy
            = input_txt ∧
          (prepare_ud_dataset ssjProcess short_name input_txt input_conllu).conllu_copy
            = input_conllu) := by
  unfold prepare_ud_dataset
  by_cases h1 : short_name = "sl_ssj"
  · simp [h1]
  · by_cases h2 : short_name = "en_ewt"
    · simp [h1, h2]
    · simp [h1, h2]

/-- C9 witness: the `en_ewt` branch MWT-strips the conllu copy and the
default branch copies it verbatim, on concrete inputs. -/
theorem prepare_ud_dataset_dispatch_witness :
    ((prepare_ud_dataset (fun a b => (b, a)) "en_ewt" [['x']]
        [['1', '-', '2'], ['y']]).conllu_copy
      = strip_mwt_from_conll [['1', '-', '2'], ['y']]) ∧
      ((prepare_ud_dataset (fun a b => (b, a)) "fr_gsd" [['x']]
          [['y']]).conllu_copy = [['y']]) :=
  ⟨((prepare_ud_dataset_dispatch (fun a b => (b, a)) "en_ewt" [['x']]
      [['1', '-', '2'], ['y']]).2.2.1 rfl).2,
    ((prepare_ud_dataset_dispatch (fun a b => (b, a)) "fr_gsd" [['x']]
      [['y']]).2.2.2 (by decide) (by decide)).2⟩

end PrepareTokenizerTreebank
